import Mathlib

/-!
Verification of the ChinaCDC_NCC core pipeline (src/core_pipeline.py).

The four pipeline stages are shallowly embedded over rational-valued tables:

* a CSV table whose first column is the grid-cell identifier FID is a `Table`
  (the FID column kept apart from the named value columns, mirroring how each
  stage immediately separates FID from the value columns);
* the stage-1 baseline input is a list of files, each file a list of rows;
* machine floats become exact rationals (the spec disclaims numerical-stability
  guarantees, so the arithmetic content of each stage is modelled exactly);
* fallible stages return `Except String`, an error modelling an uncaught Python
  exception (KeyError / ValueError) propagating to the caller, in which case no
  output file is written.

Column lookup, column assignment, year extraction, the linear-interpolation
quantile of the pandas/numpy collaborator, and the per-stage loops are each
translated from the corresponding lines of src/core_pipeline.py.
-/

namespace CorePipeline

/-- One CSV column of rational values, one entry per grid-cell row. -/
abbrev Col := List ℚ

/-- A CSV table whose first column is the grid-cell identifier FID: the FID
column is kept apart from the remaining named value columns, mirroring
`FID = data['FID']; temps = data.drop(columns=['FID'])` and `ER.columns[1:]`
in src/core_pipeline.py. -/
structure Table where
  fid : List ℤ
  cols : List (String × Col)
deriving DecidableEq

/-- Column lookup by name in a list of named columns, modelling `df[name]`
on a freshly read DataFrame: `none` models an uncaught KeyError. -/
def findCol (cols : List (String × Col)) (name : String) : Option Col :=
  (cols.find? (fun c => c.1 == name)).map Prod.snd

/-- Column lookup on a `Table` (the non-FID columns). -/
def getCol (t : Table) (name : String) : Option Col :=
  findCol t.cols name

/-- Column assignment `df[name] = v`: replace the column in place when the name
is already present, append it at the end otherwise (pandas semantics). -/
def setCol (t : Table) (name : String) (v : Col) : Table :=
  if t.cols.any (fun c => c.1 == name) then
    { t with cols := t.cols.map (fun c => if c.1 == name then (name, v) else c) }
  else
    { t with cols := t.cols ++ [(name, v)] }

/-- Python `str.split(sep)` on a list of characters: always returns at least
one (possibly empty) piece; a separator character starts a new piece. -/
def pySplitOn (sep : Char) : List Char → List (List Char)
  | [] => [[]]
  | c :: rest =>
    let r := pySplitOn sep rest
    if c = sep then [] :: r else (c :: r.headD []) :: r.tail

/-- Year extraction from a column name, modelling `col.split("_")[-1]`
(src/core_pipeline.py lines 103 and 137). -/
def colYear (s : String) : String :=
  ⟨(pySplitOn '_' s.data).getLastD []⟩

/-- Year extraction from a file name, modelling the Python slice `fname[-8:-4]`
(src/core_pipeline.py line 64), including Python's clamping of negative slice
bounds on short strings. -/
def fnameYear (s : String) : String :=
  ⟨(s.data.drop (s.data.length - 8)).take ((s.data.length - 4) - (s.data.length - 8))⟩

/-- The quantile level 0.975 used by stage 1 (`quantile(0.975, axis=1)`). -/
def q975 : ℚ := 975 / 1000

/-- Linear-interpolation quantile computed by the pandas/numpy collaborator
(`Series.quantile`, default linear interpolation): sort the values, form the
fractional position `h = q * (n - 1)`, split it as `h = i + g` with `i = ⌊h⌋`,
and return `a i + g * (a (i+1) - a i)` with the upper index clipped to `n - 1`. -/
def pandasQuantile (q : ℚ) (xs : List ℚ) : ℚ :=
  let s := xs.insertionSort (· ≤ ·)
  let n := s.length
  let h : ℚ := q * ((n : ℚ) - 1)
  let i : ℕ := (⌊h⌋).toNat
  let g : ℚ := h - (i : ℚ)
  let lo := s.getD i 0
  let hi := s.getD (min (i + 1) (n - 1)) 0
  lo + g * (hi - lo)

/-- Reference quantile definition written from the specification's words
(testable property 1: a reference quantile implementation, linear-interpolation
convention): with the values in ascending order and the fractional position
`h = q * (n - 1)` split into integer part `j` and fractional part `g`, the
quantile is the convex combination `(1 - g) * a j + g * a (j + 1)` of the two
neighbouring order statistics. -/
def refQuantile (q : ℚ) (xs : List ℚ) : ℚ :=
  let s := xs.insertionSort (· ≤ ·)
  let n := s.length
  let h : ℚ := q * ((n : ℚ) - 1)
  let j : ℕ := (⌊h⌋).toNat
  let g : ℚ := h - (j : ℚ)
  (1 - g) * s.getD j 0 + g * s.getD (min (j + 1) (n - 1)) 0

/-- Number of rows of the side-by-side concatenation of the baseline files
(pandas `concat(axis=1)` aligns on the union of the row indexes). -/
def nRowsAll (files : List (List (List ℚ))) : ℕ :=
  (files.map List.length).foldr max 0

/-- Row `i` of the side-by-side concatenation `pd.concat(dfs, axis=1)`: the
values of row `i` of every file that has such a row. A file with fewer rows
contributes NaN cells there, which the quantile then skips, so those cells are
simply absent from the row's value list. -/
def concatRows (files : List (List (List ℚ))) : List (List ℚ) :=
  (List.range (nRowsAll files)).map (fun i => (files.map (fun f => f.getD i [])).flatten)

/-- Stage 1, `calculate_baseline_threshold` (src/core_pipeline.py lines 31-37):
concatenate all baseline files side by side and take the 0.975 quantile of each
row. An empty file list is the uncaught `pd.concat` ValueError. The output
value is the written CSV: the header of its single value column paired with the
per-row thresholds; the header is the string form of the quantile Series' name,
which pandas sets to the quantile level 0.975. -/
def calculate_baseline_threshold (files : List (List (List ℚ))) :
    Except String (String × Col) :=
  if files.isEmpty then
    .error "ValueError: No objects to concatenate"
  else
    .ok ("0.975", (concatRows files).map (pandasQuantile q975))

/-- Row `i` of `temps.ge(threshold['Percent975'], axis=0).sum(axis=1)`: the
number of value columns whose entry in row `i` is greater than or equal to the
threshold `t` of that row. -/
def rowCount (cols : List (String × Col)) (t : ℚ) (i : ℕ) : ℕ :=
  cols.countP (fun c => decide (t ≤ (c.2).getD i 0))

/-- Stage 2 leaf processing, the body of the scenario/model/file loops of
`count_heatwave_days` (src/core_pipeline.py lines 65-76): given the threshold
table read from `threshold_file` and one future-climate table (first column
already renamed to FID), count per row the days at or above that row's
threshold; the threshold is paired with the rows by position. A missing
`Percent975` column is the uncaught KeyError of `threshold['Percent975']`. -/
def count_heatwave_days (threshold : List (String × Col)) (data : Table) :
    Except String Table :=
  match findCol threshold "Percent975" with
  | none => .error "KeyError: Percent975"
  | some th =>
    .ok { fid := data.fid,
          cols := [("HeatwaveDays",
            (List.range data.fid.length).map
              (fun i => (rowCount data.cols (th.getD i 0) i : ℚ)))] }

/-- The loop of stage 3 (src/core_pipeline.py lines 102-105): for each ER
column, look up the mortality column of the extracted year and assign the
elementwise product to output column `ED_<year>`; a missing mortality column
is the uncaught KeyError. -/
def edLoop (d : Table) (t : Table) : List (String × Col) → Except String Table
  | [] => .ok t
  | c :: rest =>
    match findCol d.cols ("Deaths-" ++ colYear c.1) with
    | none => .error ("KeyError: Deaths-" ++ colYear c.1)
    | some dcol =>
      edLoop d (setCol t ("ED_" ++ colYear c.1) (List.zipWith (· * ·) c.2 dcol)) rest

/-- Stage 3, `calculate_excess_deaths` (src/core_pipeline.py lines 96-107):
start from an output table carrying the ER table's FID column and run the
per-year loop over the ER columns after FID. -/
def calculate_excess_deaths (er d : Table) : Except String Table :=
  edLoop d { fid := er.fid, cols := [] } er.cols

/-- One entry of the stage-4 benefit column (src/core_pipeline.py lines
139-140): `(pop65 * days) * 5/1e6 + (popU65 * days) * 0.0127/1e6`, evaluated
elementwise over the three positionally aligned columns. -/
def benefitCol : Col → Col → Col → Col
  | a :: as, b :: bs, hd :: hds =>
    (a * hd * 5 / 1000000 + b * hd * (127 / 10000) / 1000000) :: benefitCol as bs hds
  | _, _, _ => []

/-- The loop of stage 4 (src/core_pipeline.py lines 136-141): for each heatwave
year column, look up the two population columns of the extracted year and
assign the benefit column to output column `Benefit_<year>`; a missing
population column is the uncaught KeyError. -/
def ewLoop (p65 pu65 : Table) (t : Table) :
    List (String × Col) → Except String Table
  | [] => .ok t
  | c :: rest =>
    match findCol p65.cols ("Pop65-" ++ colYear c.1) with
    | none => .error ("KeyError: Pop65-" ++ colYear c.1)
    | some a =>
      match findCol pu65.cols ("PopU65-" ++ colYear c.1) with
      | none => .error ("KeyError: PopU65-" ++ colYear c.1)
      | some b =>
        ewLoop p65 pu65 (setCol t ("Benefit_" ++ colYear c.1) (benefitCol a b c.2)) rest

/-- Stage 4, `calculate_early_warning_benefits` (src/core_pipeline.py lines
129-143): start from an output table carrying the heatwave table's FID column
and run the per-year loop over the heatwave columns after FID. -/
def calculate_early_warning_benefits (hw p65 pu65 : Table) : Except String Table :=
  ewLoop p65 pu65 { fid := hw.fid, cols := [] } hw.cols

/-! ## Helper lemmas -/

theorem pandasQuantile_eq_refQuantile (q : ℚ) (xs : List ℚ) :
    pandasQuantile q xs = refQuantile q xs := by
  simp only [pandasQuantile, refQuantile]
  ring

theorem pySplitOn_ne_nil (sep : Char) (cs : List Char) : pySplitOn sep cs ≠ [] := by
  cases cs with
  | nil => simp [pySplitOn]
  | cons c rest =>
    simp only [pySplitOn]
    split <;> simp

theorem pySplitOn_of_not_mem (sep : Char) (cs : List Char) (h : sep ∉ cs) :
    pySplitOn sep cs = [cs] := by
  induction cs with
  | nil => rfl
  | cons c rest ih =>
    simp only [List.mem_cons, not_or] at h
    simp only [pySplitOn, ih h.2]
    rw [if_neg (fun hc => h.1 hc.symm)]
    simp

theorem pySplitOn_two (sep : Char) (cs : List Char) (h : sep ∈ cs) :
    ∃ a b t, pySplitOn sep cs = a :: b :: t := by
  induction cs with
  | nil => cases h
  | cons c rest ih =>
    simp only [pySplitOn]
    by_cases hc : c = sep
    · rw [if_pos hc]
      cases hr : pySplitOn sep rest with
      | nil => exact absurd hr (pySplitOn_ne_nil sep rest)
      | cons a t => exact ⟨[], a, t, rfl⟩
    · rw [if_neg hc]
      have hmem : sep ∈ rest := by
        rcases List.mem_cons.mp h with h1 | h1
        · exact absurd h1.symm hc
        · exact h1
      obtain ⟨a, b, t, hr⟩ := ih hmem
      rw [hr]
      exact ⟨c :: a, b, t, rfl⟩

theorem pySplitOn_getLast?_sep (sep : Char) (pre post : List Char) (h : sep ∉ post) :
    (pySplitOn sep (pre ++ sep :: post)).getLast? = some post := by
  induction pre with
  | nil =>
    simp only [List.nil_append, pySplitOn, if_pos rfl, pySplitOn_of_not_mem sep post h]
    rfl
  | cons c pre ih =>
    simp only [List.cons_append, pySplitOn]
    by_cases hc : c = sep
    · rw [if_pos hc]
      cases hr : pySplitOn sep (pre ++ sep :: post) with
      | nil => exact absurd hr (pySplitOn_ne_nil sep _)
      | cons a t =>
        rw [hr] at ih
        rw [List.getLast?_cons_cons]
        exact ih
    · rw [if_neg hc]
      obtain ⟨a, b, t, hr⟩ := pySplitOn_two sep (pre ++ sep :: post) (by simp)
      rw [hr] at ih
      simp only [List.append_eq] at hr ⊢
      rw [hr]
      simp only [List.headD_cons, List.tail_cons]
      rw [List.getLast?_cons_cons]
      rw [List.getLast?_cons_cons] at ih
      exact ih

theorem colYear_append (pre post : String) (h : '_' ∉ post.data) :
    colYear (pre ++ "_" ++ post) = post := by
  have hd : (pre ++ "_" ++ post).data = pre.data ++ '_' :: post.data := by
    rw [String.data_append, String.data_append,
      show ("_" : String).data = ['_'] from rfl]
    simp
  simp only [colYear, hd]
  rw [List.getLastD_eq_getLast?, pySplitOn_getLast?_sep '_' pre.data post.data h]
  rfl

theorem fnameYear_append (stem : String) (h : 4 ≤ stem.data.length) :
    fnameYear (stem ++ ".csv") = ⟨stem.data.drop (stem.data.length - 4)⟩ := by
  have hd : (stem ++ ".csv").data = stem.data ++ ['.', 'c', 's', 'v'] := by
    rw [String.data_append]
  simp only [fnameYear, hd, List.length_append]
  have h1 : stem.data.length + 4 - 8 = stem.data.length - 4 := by omega
  have h2 : stem.data.length + 4 - 4 = stem.data.length := by
    omega
  have hlen4 : (['.', 'c', 's', 'v'] : List Char).length = 4 := rfl
  rw [hlen4, h1, h2, List.drop_append_eq_append_drop]
  have h3 : stem.data.length - 4 - stem.data.length = 0 := by omega
  rw [h3, List.drop_zero, List.take_append_eq_append_take]
  have hdl : (stem.data.drop (stem.data.length - 4)).length = 4 := by
    rw [List.length_drop]
    omega
  have h4 : stem.data.length - (stem.data.length - 4) = 4 := by omega
  rw [h4, hdl, List.take_of_length_le (le_of_eq hdl)]
  simp

theorem setCol_fid (t : Table) (name : String) (v : Col) :
    (setCol t name v).fid = t.fid := by
  simp only [setCol]
  split <;> rfl

theorem setCol_cols_of_fresh (t : Table) (name : String) (v : Col)
    (h : ∀ c ∈ t.cols, c.1 ≠ name) : (setCol t name v).cols = t.cols ++ [(name, v)] := by
  have hany : t.cols.any (fun c => c.1 == name) = false := by
    simp only [List.any_eq_false, beq_iff_eq]
    exact h
  simp [setCol, hany]

theorem findCol_of_mem_nodup (ps : List (String × Col)) (p : String × Col)
    (hmem : p ∈ ps) (hnd : (ps.map Prod.fst).Nodup) : findCol ps p.1 = some p.2 := by
  induction ps with
  | nil => cases hmem
  | cons a ps ih =>
    rcases List.mem_cons.mp hmem with h1 | h1
    · subst h1
      simp [findCol, List.find?_cons_of_pos]
    · have hne : a.1 ≠ p.1 := by
        have hp : p.1 ∈ ps.map Prod.fst := List.mem_map_of_mem _ h1
        have hnotin := (List.nodup_cons.mp hnd).1
        intro heq
        rw [heq] at hnotin
        exact hnotin hp
      have ihr := ih h1 (List.nodup_cons.mp hnd).2
      simp only [findCol] at ihr ⊢
      rw [List.find?_cons_of_neg _ (by simpa using hne)]
      exact ihr

theorem edLoop_ok (d : Table) (l : List (String × Col)) :
    ∀ t : Table, (∀ c ∈ l, (findCol d.cols ("Deaths-" ++ colYear c.1)).isSome) →
    edLoop d t l = .ok (l.foldl (fun t c => setCol t ("ED_" ++ colYear c.1)
      (List.zipWith (· * ·) c.2 ((findCol d.cols ("Deaths-" ++ colYear c.1)).getD []))) t) := by
  induction l with
  | nil =>
    intro t _
    rfl
  | cons c rest ih =>
    intro t hall
    obtain ⟨dcol, hdcol⟩ :=
      Option.isSome_iff_exists.mp (hall c (List.mem_cons_self c rest))
    simp only [edLoop, hdcol, List.foldl_cons]
    rw [ih _ (fun c' h => hall c' (List.mem_cons_of_mem _ h))]
    rfl

theorem edLoop_fid (d : Table) (l : List (String × Col)) :
    ∀ t out : Table, edLoop d t l = .ok out → out.fid = t.fid := by
  induction l with
  | nil =>
    intro t out h
    cases h
    rfl
  | cons c rest ih =>
    intro t out h
    simp only [edLoop] at h
    cases hf : findCol d.cols ("Deaths-" ++ colYear c.1) with
    | none =>
      rw [hf] at h
      cases h
    | some dcol =>
      rw [hf] at h
      rw [ih _ _ h, setCol_fid]

theorem edLoop_error (d : Table) (l : List (String × Col)) :
    ∀ t : Table, (∃ c ∈ l, findCol d.cols ("Deaths-" ++ colYear c.1) = none) →
    ∃ m, edLoop d t l = .error m := by
  induction l with
  | nil =>
    intro t h
    obtain ⟨c, hc, _⟩ := h
    cases hc
  | cons a rest ih =>
    intro t h
    cases hf : findCol d.cols ("Deaths-" ++ colYear a.1) with
    | none => exact ⟨"KeyError: Deaths-" ++ colYear a.1, by simp only [edLoop, hf]⟩
    | some dcol =>
      obtain ⟨c, hc, hmiss⟩ := h
      rcases List.mem_cons.mp hc with h1 | h1
      · subst h1
        rw [hf] at hmiss
        cases hmiss
      · obtain ⟨m, hm⟩ := ih (setCol t ("ED_" ++ colYear a.1)
          (List.zipWith (· * ·) a.2 dcol)) ⟨c, h1, hmiss⟩
        refine ⟨m, ?_⟩
        simp only [edLoop, hf]
        exact hm

theorem ewLoop_ok (p65 pu65 : Table) (l : List (String × Col)) :
    ∀ t : Table,
    (∀ c ∈ l, (findCol p65.cols ("Pop65-" ++ colYear c.1)).isSome ∧
              (findCol pu65.cols ("PopU65-" ++ colYear c.1)).isSome) →
    ewLoop p65 pu65 t l = .ok (l.foldl (fun t c => setCol t ("Benefit_" ++ colYear c.1)
      (benefitCol ((findCol p65.cols ("Pop65-" ++ colYear c.1)).getD [])
        ((findCol pu65.cols ("PopU65-" ++ colYear c.1)).getD []) c.2)) t) := by
  induction l with
  | nil =>
    intro t _
    rfl
  | cons c rest ih =>
    intro t hall
    obtain ⟨ha, hb⟩ := hall c (List.mem_cons_self c rest)
    obtain ⟨a, ha'⟩ := Option.isSome_iff_exists.mp ha
    obtain ⟨b, hb'⟩ := Option.isSome_iff_exists.mp hb
    simp only [ewLoop, ha', hb', List.foldl_cons]
    rw [ih _ (fun c' h => hall c' (List.mem_cons_of_mem _ h))]
    rfl

theorem ewLoop_fid (p65 pu65 : Table) (l : List (String × Col)) :
    ∀ t out : Table, ewLoop p65 pu65 t l = .ok out → out.fid = t.fid := by
  induction l with
  | nil =>
    intro t out h
    cases h
    rfl
  | cons c rest ih =>
    intro t out h
    simp only [ewLoop] at h
    cases hf : findCol p65.cols ("Pop65-" ++ colYear c.1) with
    | none =>
      rw [hf] at h
      cases h
    | some a =>
      rw [hf] at h
      cases hg : findCol pu65.cols ("PopU65-" ++ colYear c.1) with
      | none =>
        rw [hg] at h
        cases h
      | some b =>
        rw [hg] at h
        rw [ih _ _ h, setCol_fid]

theorem ewLoop_error (p65 pu65 : Table) (l : List (String × Col)) :
    ∀ t : Table,
    (∃ c ∈ l, findCol p65.cols ("Pop65-" ++ colYear c.1) = none ∨
              findCol pu65.cols ("PopU65-" ++ colYear c.1) = none) →
    ∃ m, ewLoop p65 pu65 t l = .error m := by
  induction l with
  | nil =>
    intro t h
    obtain ⟨c, hc, _⟩ := h
    cases hc
  | cons a rest ih =>
    intro t h
    cases hf : findCol p65.cols ("Pop65-" ++ colYear a.1) with
    | none => exact ⟨"KeyError: Pop65-" ++ colYear a.1, by simp only [ewLoop, hf]⟩
    | some pa =>
      cases hg : findCol pu65.cols ("PopU65-" ++ colYear a.1) with
      | none => exact ⟨"KeyError: PopU65-" ++ colYear a.1, by simp only [ewLoop, hf, hg]⟩
      | some pb =>
        obtain ⟨c, hc, hmiss⟩ := h
        rcases List.mem_cons.mp hc with h1 | h1
        · subst h1
          rcases hmiss with hm | hm
          · rw [hf] at hm
            cases hm
          · rw [hg] at hm
            cases hm
        · obtain ⟨m, hm⟩ := ih (setCol t ("Benefit_" ++ colYear a.1)
            (benefitCol pa pb a.2)) ⟨c, h1, hmiss⟩
          refine ⟨m, ?_⟩
          simp only [ewLoop, hf, hg]
          exact hm

theorem foldl_setCol_fn_cols (nameF : (String × Col) → String)
    (valF : (String × Col) → Col) (l : List (String × Col)) :
    ∀ t : Table, (∀ p ∈ l, ∀ c ∈ t.cols, c.1 ≠ nameF p) → (l.map nameF).Nodup →
    (l.foldl (fun t c => setCol t (nameF c) (valF c)) t).cols =
      t.cols ++ l.map (fun c => (nameF c, valF c)) := by
  induction l with
  | nil =>
    intro t _ _
    simp
  | cons p ps ih =>
    intro t hfresh hnd
    simp only [List.foldl_cons, List.map_cons]
    have hstep : (setCol t (nameF p) (valF p)).cols = t.cols ++ [(nameF p, valF p)] :=
      setCol_cols_of_fresh t (nameF p) (valF p) (hfresh p (List.mem_cons_self p ps))
    have hfresh' : ∀ q ∈ ps, ∀ c ∈ (setCol t (nameF p) (valF p)).cols, c.1 ≠ nameF q := by
      intro q hq c hc
      rw [hstep] at hc
      rcases List.mem_append.mp hc with h1 | h1
      · exact hfresh q (List.mem_cons_of_mem _ hq) c h1
      · have hc' : c = (nameF p, valF p) := by simpa using h1
        subst hc'
        have hqmem : nameF q ∈ ps.map nameF := List.mem_map_of_mem _ hq
        have hnotin := (List.nodup_cons.mp hnd).1
        intro heq
        simp only at heq
        rw [heq] at hnotin
        exact hnotin hqmem
    rw [ih (setCol t (nameF p) (valF p)) hfresh' (List.nodup_cons.mp hnd).2, hstep,
      List.append_assoc, List.singleton_append]

theorem getD_range_map (f : ℕ → ℚ) (n i : ℕ) (hi : i < n) :
    ((List.range n).map f).getD i 0 = f i := by
  rw [List.getD_eq_getElem _ _ (by simpa using hi)]
  simp

theorem zipWith_mul_getD (a b : Col) (i : ℕ) :
    (List.zipWith (· * ·) a b).getD i 0 = a.getD i 0 * b.getD i 0 := by
  induction a generalizing b i with
  | nil => simp
  | cons x xs ih =>
    cases b with
    | nil => simp
    | cons y ys =>
      cases i with
      | zero => simp
      | succ n => simpa using ih ys n

theorem benefitCol_getD (a b hcol : Col) (ha : a.length = hcol.length)
    (hb : b.length = hcol.length) :
    ∀ i < hcol.length,
      (benefitCol a b hcol).getD i 0 =
        a.getD i 0 * hcol.getD i 0 * (5 / 1000000) +
        b.getD i 0 * hcol.getD i 0 * ((127 / 10000) / 1000000) := by
  induction hcol generalizing a b with
  | nil =>
    intro i hi
    cases hi
  | cons hd hds ih =>
    cases a with
    | nil =>
      intro i hi
      simp at ha
    | cons x xs =>
      cases b with
      | nil =>
        intro i hi
        simp at hb
      | cons y ys =>
        intro i hi
        cases i with
        | zero =>
          simp only [benefitCol, List.getD_cons_zero]
          ring
        | succ n =>
          simp only [benefitCol, List.getD_cons_succ]
          exact ih xs ys (by simpa using ha) (by simpa using hb) n (by simpa using hi)

/-! ## Claims -/

/-- C8: running the baseline threshold stage on an empty input directory (an
empty list of baseline files, since stage 1 takes every `.csv` file of the
directory) yields the uncaught `pd.concat` ValueError; the stage returns the
error instead of an output table, so no output file is written. -/
theorem baseline_empty_input_errors :
    calculate_baseline_threshold [] = .error "ValueError: No objects to concatenate" := rfl

/-- C1: evaluation at a failing input. Stage 1 writes its single value column
under the header "0.975" (the string form of the quantile Series' name), not
under "Percent975"; reading that output back as the threshold table and
selecting column "Percent975", as stage 2 does, fails with a KeyError, so the
per-cell thresholds cannot be obtained under the name the claim requires. -/
theorem baseline_header_breaks_downstream_lookup :
    calculate_baseline_threshold [[[30]]] = .ok ("0.975", [30]) ∧
    findCol [("0.975", [30])] "Percent975" = none ∧
    count_heatwave_days [("0.975", [30])] { fid := [0], cols := [("day1", [35])] } =
      .error "KeyError: Percent975" := by
  refine ⟨?_, rfl, rfl⟩
  simp only [calculate_baseline_threshold, concatRows, nRowsAll, q975]
  norm_num [List.range_succ]
  norm_num [pandasQuantile, List.insertionSort, List.orderedInsert]

/-- C3: for every nonempty baseline input, the stage-1 output is the per-row
97.5th-percentile column of the side-by-side concatenation, and each row's
value equals the reference linear-interpolation quantile of that row's values,
computed independently per row. -/
theorem baseline_threshold_matches_reference_quantile
    (files : List (List (List ℚ))) (hne : files ≠ []) :
    calculate_baseline_threshold files =
      .ok ("0.975", (concatRows files).map (refQuantile q975)) := by
  have hmap : pandasQuantile q975 = refQuantile q975 :=
    funext (pandasQuantile_eq_refQuantile q975)
  simp only [calculate_baseline_threshold, hmap]
  rw [if_neg (by simpa using hne)]

/-- C3 witness: one baseline file with a single row holding values 0 and 40;
the 97.5th percentile interpolates between them at position 0.975, giving 39. -/
theorem baseline_threshold_reference_witness :
    calculate_baseline_threshold [[[0, 40]]] = .ok ("0.975", [39]) := by
  have h := baseline_threshold_matches_reference_quantile [[[0, 40]]] (by simp)
  rw [h]
  have hfloor : (⌊(39 : ℚ) / 40⌋ : ℤ) = 0 := by
    rw [Int.floor_eq_zero_iff]
    constructor <;> norm_num
  simp only [concatRows, nRowsAll, q975]
  norm_num [List.range_succ]
  norm_num [refQuantile, List.insertionSort, List.orderedInsert, hfloor]

/-- C6: year extraction. For every leaf filename built from a stem of at least
4 characters and the extension ".csv", the extracted year is the 4 characters
preceding the extension (the last 4 characters of the stem); and for every
column name consisting of a prefix, an underscore and an underscore-free
suffix, the extracted year is the substring after the last underscore. -/
theorem year_extraction_correct (stem pre post : String)
    (hstem : 4 ≤ stem.length) (hpost : '_' ∉ post.data) :
    fnameYear (stem ++ ".csv") = ⟨stem.data.drop (stem.data.length - 4)⟩ ∧
    colYear (pre ++ "_" ++ post) = post :=
  ⟨fnameYear_append stem hstem, colYear_append pre post hpost⟩

/-- C6 witness: the two examples of the specification, evaluated concretely. -/
theorem year_extraction_witness :
    fnameYear "scenarioA_modelB_2075.csv" = "2075" ∧ colYear "ER_rcp85_2100" = "2100" := by
  obtain ⟨h1, h2⟩ :=
    year_extraction_correct "scenarioA_modelB_2075" "ER_rcp85" "2100" (by decide) (by decide)
  constructor
  · rw [show ("scenarioA_modelB_2075.csv" : String) =
      "scenarioA_modelB_2075" ++ ".csv" from rfl, h1]
    decide
  · rw [show ("ER_rcp85_2100" : String) = "ER_rcp85" ++ "_" ++ "2100" from rfl, h2]

/-- C9: the FID column of each stage's output table equals, element for element
and in order, the FID column of the stage's primary input table: the
future-climate leaf table for the heatwave stage, the ER table for the
excess-death stage, and the heatwave-days table for the benefit stage. -/
theorem fid_preserved_across_stages
    (threshold : List (String × Col)) (data er d hw p65 pu65 o1 o2 o3 : Table)
    (h1 : count_heatwave_days threshold data = .ok o1)
    (h2 : calculate_excess_deaths er d = .ok o2)
    (h3 : calculate_early_warning_benefits hw p65 pu65 = .ok o3) :
    o1.fid = data.fid ∧ o2.fid = er.fid ∧ o3.fid = hw.fid := by
  refine ⟨?_, edLoop_fid d er.cols { fid := er.fid, cols := [] } o2 h2,
    ewLoop_fid p65 pu65 hw.cols { fid := hw.fid, cols := [] } o3 h3⟩
  simp only [count_heatwave_days] at h1
  cases hf : findCol threshold "Percent975" with
  | none =>
    rw [hf] at h1
    cases h1
  | some th =>
    rw [hf] at h1
    cases h1
    rfl

/-- C9 witness: concrete successful runs of the three stages, each carrying its
primary input's FID column through unchanged. -/
theorem fid_preserved_witness :
    ∃ o1 o2 o3 : Table,
      count_heatwave_days [("Percent975", [25])] { fid := [7], cols := [] } = .ok o1 ∧
      calculate_excess_deaths { fid := [3], cols := [] } { fid := [3], cols := [] } = .ok o2 ∧
      calculate_early_warning_benefits { fid := [4], cols := [] } { fid := [4], cols := [] }
        { fid := [4], cols := [] } = .ok o3 ∧
      o1.fid = [7] ∧ o2.fid = [3] ∧ o3.fid = [4] := by
  have e1 : count_heatwave_days [("Percent975", [25])] { fid := [7], cols := [] } =
      .ok { fid := [7], cols := [("HeatwaveDays", [0])] } := by
    simp [count_heatwave_days, findCol, rowCount, List.range_succ]
  have e2 : calculate_excess_deaths { fid := [3], cols := [] } { fid := [3], cols := [] } =
      .ok { fid := [3], cols := [] } := rfl
  have e3 : calculate_early_warning_benefits { fid := [4], cols := [] }
      { fid := [4], cols := [] } { fid := [4], cols := [] } =
      .ok { fid := [4], cols := [] } := rfl
  obtain ⟨f1, f2, f3⟩ := fid_preserved_across_stages _ _ _ _ _ _ _ _ _ _ e1 e2 e3
  exact ⟨_, _, _, e1, e2, e3, f1, f2, f3⟩

/-- C7: if any extracted year has no matching column (no Deaths column in the
mortality table for the excess-death stage; no Pop65 or PopU65 column in the
population tables for the benefit stage), the stage stops with a lookup error
propagated to the caller: the stage's result is the error, not a table. -/
theorem missing_column_lookup_error_propagates (er d hw p65 pu65 : Table)
    (h1 : ∃ c ∈ er.cols, findCol d.cols ("Deaths-" ++ colYear c.1) = none)
    (h2 : ∃ c ∈ hw.cols, findCol p65.cols ("Pop65-" ++ colYear c.1) = none ∨
          findCol pu65.cols ("PopU65-" ++ colYear c.1) = none) :
    (∃ m, calculate_excess_deaths er d = .error m) ∧
    (∃ m, calculate_early_warning_benefits hw p65 pu65 = .error m) :=
  ⟨edLoop_error d er.cols _ h1, ewLoop_error p65 pu65 hw.cols _ h2⟩

/-- C7 witness: an ER column for 2050 with an empty mortality table, and a
heatwave column for 2050 with empty population tables. -/
theorem missing_column_error_witness :
    (∃ m, calculate_excess_deaths { fid := [1], cols := [("ER_2050", [2])] }
        { fid := [1], cols := [] } = .error m) ∧
    (∃ m, calculate_early_warning_benefits { fid := [1], cols := [("HW_2050", [10])] }
        { fid := [1], cols := [] } { fid := [1], cols := [] } = .error m) := by
  apply missing_column_lookup_error_propagates
  · exact ⟨("ER_2050", [2]), by simp, rfl⟩
  · exact ⟨("HW_2050", [10]), by simp, Or.inl rfl⟩

/-- C4: for positionally aligned ER and mortality tables, each ER column with
year suffix y whose mortality column Deaths-y exists produces an output column
ED_y whose entries are the elementwise products of the two columns (assuming
every ER year has its mortality column, so the stage succeeds, and the output
column names are pairwise distinct, so no later year overwrites an earlier
one). -/
theorem excess_deaths_elementwise_product (er d : Table) (c : String × Col) (dcol : Col)
    (hc : c ∈ er.cols)
    (hdcol : findCol d.cols ("Deaths-" ++ colYear c.1) = some dcol)
    (hall : ∀ c' ∈ er.cols, (findCol d.cols ("Deaths-" ++ colYear c'.1)).isSome)
    (hnd : (er.cols.map (fun c' => "ED_" ++ colYear c'.1)).Nodup) :
    ∃ out, calculate_excess_deaths er d = .ok out ∧
      getCol out ("ED_" ++ colYear c.1) = some (List.zipWith (· * ·) c.2 dcol) ∧
      ∀ i, (List.zipWith (· * ·) c.2 dcol).getD i 0 = (c.2).getD i 0 * dcol.getD i 0 := by
  have hok := edLoop_ok d er.cols { fid := er.fid, cols := [] } hall
  refine ⟨_, hok, ?_, fun i => zipWith_mul_getD _ _ i⟩
  have hcols := foldl_setCol_fn_cols (fun c' => "ED_" ++ colYear c'.1)
    (fun c' => List.zipWith (· * ·) c'.2 ((findCol d.cols ("Deaths-" ++ colYear c'.1)).getD []))
    er.cols { fid := er.fid, cols := [] } (by intro p _ c' hc'; cases hc') hnd
  simp only [getCol, hcols, List.nil_append]
  have hmem : ("ED_" ++ colYear c.1, List.zipWith (· * ·) c.2 dcol) ∈
      er.cols.map (fun c' => ("ED_" ++ colYear c'.1,
        List.zipWith (· * ·) c'.2 ((findCol d.cols ("Deaths-" ++ colYear c'.1)).getD []))) := by
    refine List.mem_map.mpr ⟨c, hc, ?_⟩
    rw [hdcol]
    rfl
  have hndfst : ((er.cols.map (fun c' => ("ED_" ++ colYear c'.1,
      List.zipWith (· * ·) c'.2 ((findCol d.cols ("Deaths-" ++ colYear c'.1)).getD [])))).map
      Prod.fst).Nodup := by
    rw [List.map_map]
    exact hnd
  exact findCol_of_mem_nodup _ _ hmem hndfst

/-- C4 witness: the specification's example, ER = [2, 0] and
Deaths-2050 = [10, 5] yield ED_2050 = [20, 0]. -/
theorem excess_deaths_product_witness :
    ∃ out, calculate_excess_deaths { fid := [0, 1], cols := [("ER_2050", [2, 0])] }
        { fid := [0, 1], cols := [("Deaths-2050", [10, 5])] } = .ok out ∧
      getCol out "ED_2050" = some [20, 0] := by
  obtain ⟨out, h1, h2, h3⟩ := excess_deaths_elementwise_product
    { fid := [0, 1], cols := [("ER_2050", [2, 0])] }
    { fid := [0, 1], cols := [("Deaths-2050", [10, 5])] }
    ("ER_2050", [2, 0]) [10, 5] (by simp) rfl
    (by intro c' hc'; rw [List.mem_singleton] at hc'; subst hc'; rfl)
    (by simp)
  refine ⟨out, h1, ?_⟩
  rw [show ("ED_" ++ colYear "ER_2050" : String) = "ED_2050" from rfl] at h2
  rw [h2]
  norm_num [List.zipWith]

/-- C5: for positionally aligned heatwave-days and population tables, each
heatwave column with year suffix y whose population columns Pop65-y and
PopU65-y exist produces an output column Benefit_y with entries
Pop65 * days * (5/1e6) + PopU65 * days * (0.0127/1e6), the two coefficients
fixed constants (assuming every year's population columns exist and output
names are pairwise distinct, so the stage succeeds with no overwriting). -/
theorem early_warning_benefit_formula (hw p65 pu65 : Table) (c : String × Col) (a b : Col)
    (hc : c ∈ hw.cols)
    (ha : findCol p65.cols ("Pop65-" ++ colYear c.1) = some a)
    (hb : findCol pu65.cols ("PopU65-" ++ colYear c.1) = some b)
    (hall : ∀ c' ∈ hw.cols, (findCol p65.cols ("Pop65-" ++ colYear c'.1)).isSome ∧
            (findCol pu65.cols ("PopU65-" ++ colYear c'.1)).isSome)
    (hnd : (hw.cols.map (fun c' => "Benefit_" ++ colYear c'.1)).Nodup)
    (hla : a.length = (c.2).length) (hlb : b.length = (c.2).length) :
    ∃ out, calculate_early_warning_benefits hw p65 pu65 = .ok out ∧
      getCol out ("Benefit_" ++ colYear c.1) = some (benefitCol a b c.2) ∧
      ∀ i < (c.2).length,
        (benefitCol a b c.2).getD i 0 =
          a.getD i 0 * (c.2).getD i 0 * (5 / 1000000) +
          b.getD i 0 * (c.2).getD i 0 * ((127 / 10000) / 1000000) := by
  have hok := ewLoop_ok p65 pu65 hw.cols { fid := hw.fid, cols := [] } hall
  refine ⟨_, hok, ?_, benefitCol_getD a b c.2 hla hlb⟩
  have hcols := foldl_setCol_fn_cols (fun c' => "Benefit_" ++ colYear c'.1)
    (fun c' => benefitCol ((findCol p65.cols ("Pop65-" ++ colYear c'.1)).getD [])
      ((findCol pu65.cols ("PopU65-" ++ colYear c'.1)).getD []) c'.2)
    hw.cols { fid := hw.fid, cols := [] } (by intro p _ c' hc'; cases hc') hnd
  simp only [getCol, hcols, List.nil_append]
  have hmem : ("Benefit_" ++ colYear c.1, benefitCol a b c.2) ∈
      hw.cols.map (fun c' => ("Benefit_" ++ colYear c'.1,
        benefitCol ((findCol p65.cols ("Pop65-" ++ colYear c'.1)).getD [])
          ((findCol pu65.cols ("PopU65-" ++ colYear c'.1)).getD []) c'.2)) := by
    refine List.mem_map.mpr ⟨c, hc, ?_⟩
    rw [ha, hb]
    rfl
  have hndfst : ((hw.cols.map (fun c' => ("Benefit_" ++ colYear c'.1,
      benefitCol ((findCol p65.cols ("Pop65-" ++ colYear c'.1)).getD [])
        ((findCol pu65.cols ("PopU65-" ++ colYear c'.1)).getD []) c'.2))).map
      Prod.fst).Nodup := by
    rw [List.map_map]
    exact hnd
  exact findCol_of_mem_nodup _ _ hmem hndfst

/-- C5 witness: the specification's example, Pop65-2050 = PopU65-2050 =
1000000 and 10 heatwave days yield Benefit_2050 = 50.127 = 50127/1000. -/
theorem early_warning_benefit_witness :
    ∃ out, calculate_early_warning_benefits
        { fid := [0], cols := [("HW_2050", [10])] }
        { fid := [0], cols := [("Pop65-2050", [1000000])] }
        { fid := [0], cols := [("PopU65-2050", [1000000])] } = .ok out ∧
      getCol out "Benefit_2050" = some [50127 / 1000] := by
  obtain ⟨out, h1, h2, h3⟩ := early_warning_benefit_formula
    { fid := [0], cols := [("HW_2050", [10])] }
    { fid := [0], cols := [("Pop65-2050", [1000000])] }
    { fid := [0], cols := [("PopU65-2050", [1000000])] }
    ("HW_2050", [10]) [1000000] [1000000] (by simp) rfl rfl
    (by intro c' hc'; rw [List.mem_singleton] at hc'; subst hc'; exact ⟨rfl, rfl⟩)
    (by simp) rfl rfl
  refine ⟨out, h1, ?_⟩
  rw [show ("Benefit_" ++ colYear "HW_2050" : String) = "Benefit_2050" from rfl] at h2
  rw [h2]
  norm_num [benefitCol]

/-- C2: whenever the threshold table has its Percent975 column, the heatwave
day counter succeeds and each row's output value is the count of temperature
columns whose entry is greater than or equal to that row's threshold (looked
up by row position): the comparison is inclusive, so a day exactly at the
threshold is counted, and equivalently only days strictly below the threshold
are not counted. -/
theorem heatwave_count_inclusive (threshold : List (String × Col)) (data : Table) (th : Col)
    (hth : findCol threshold "Percent975" = some th) :
    ∃ hwcol : Col,
      count_heatwave_days threshold data =
        .ok { fid := data.fid, cols := [("HeatwaveDays", hwcol)] } ∧
      hwcol.length = data.fid.length ∧
      ∀ i, i < data.fid.length →
        hwcol.getD i 0 =
          ((data.cols.countP (fun c => decide ((c.2).getD i 0 ≥ th.getD i 0)) : ℕ) : ℚ) ∧
        hwcol.getD i 0 =
          ((data.cols.countP (fun c => !decide ((c.2).getD i 0 < th.getD i 0)) : ℕ) : ℚ) := by
  refine ⟨(List.range data.fid.length).map
      (fun i => ((rowCount data.cols (th.getD i 0) i : ℕ) : ℚ)),
    by simp only [count_heatwave_days, hth], by simp, ?_⟩
  intro i hi
  have hget := getD_range_map
    (fun i => ((rowCount data.cols (th.getD i 0) i : ℕ) : ℚ)) data.fid.length i hi
  simp only at hget
  have hge : rowCount data.cols (th.getD i 0) i =
      data.cols.countP (fun c => decide ((c.2).getD i 0 ≥ th.getD i 0)) := by
    unfold rowCount
    apply List.countP_congr
    intro c _
    simp only [decide_eq_true_eq, ge_iff_le]
  have hlt : rowCount data.cols (th.getD i 0) i =
      data.cols.countP (fun c => !decide ((c.2).getD i 0 < th.getD i 0)) := by
    unfold rowCount
    apply List.countP_congr
    intro c _
    simp only [Bool.not_eq_true', decide_eq_false_iff_not, decide_eq_true_eq, not_lt]
  constructor
  · rw [hget, hge]
  · rw [hget, hlt]

/-- C2 witness: threshold 30; a day at exactly 30 is counted, a day at 29 is
not, so the single row's count is 1. -/
theorem heatwave_count_inclusive_witness :
    ∃ hwcol : Col,
      count_heatwave_days [("Percent975", [30])]
        { fid := [0], cols := [("day1", [30]), ("day2", [29])] } =
        .ok { fid := [0], cols := [("HeatwaveDays", hwcol)] } ∧
      hwcol.getD 0 0 = 1 := by
  obtain ⟨hwcol, h1, h2, h3⟩ := heatwave_count_inclusive [("Percent975", [30])]
    { fid := [0], cols := [("day1", [30]), ("day2", [29])] } [30] rfl
  refine ⟨hwcol, h1, ?_⟩
  rw [(h3 0 (by simp)).1]
  norm_num [List.countP_cons]

/-- C10: whenever the heatwave day counter succeeds, every row's output value
is a natural number n with 0 ≤ n (automatic for a natural) and n at most the
number of temperature (non-FID) columns of the leaf table. -/
theorem heatwave_counts_bounded (threshold : List (String × Col)) (data : Table) (th : Col)
    (hth : findCol threshold "Percent975" = some th) :
    ∃ hwcol : Col,
      count_heatwave_days threshold data =
        .ok { fid := data.fid, cols := [("HeatwaveDays", hwcol)] } ∧
      hwcol.length = data.fid.length ∧
      ∀ i, i < hwcol.length → ∃ n : ℕ, hwcol.getD i 0 = (n : ℚ) ∧ n ≤ data.cols.length := by
  refine ⟨(List.range data.fid.length).map
      (fun i => ((rowCount data.cols (th.getD i 0) i : ℕ) : ℚ)),
    by simp only [count_heatwave_days, hth], by simp, ?_⟩
  intro i hi
  have hi' : i < data.fid.length := by simpa using hi
  refine ⟨rowCount data.cols (th.getD i 0) i,
    getD_range_map (fun i => ((rowCount data.cols (th.getD i 0) i : ℕ) : ℚ))
      data.fid.length i hi', List.countP_le_length _⟩

/-- C10 witness: one temperature column, threshold 10, day at 12: the count is
the natural number 1, at most the single temperature column. -/
theorem heatwave_counts_bounded_witness :
    ∃ hwcol : Col,
      count_heatwave_days [("Percent975", [10])] { fid := [5], cols := [("day1", [12])] } =
        .ok { fid := [5], cols := [("HeatwaveDays", hwcol)] } ∧
      ∃ n : ℕ, hwcol.getD 0 0 = (n : ℚ) ∧ n ≤ 1 := by
  obtain ⟨hwcol, h1, h2, h3⟩ := heatwave_counts_bounded [("Percent975", [10])]
    { fid := [5], cols := [("day1", [12])] } [10] rfl
  refine ⟨hwcol, h1, ?_⟩
  have := h3 0 (by rw [h2]; simp)
  simpa using this

end CorePipeline
